import Mathlib

/-!
Verification of the MCP client subsystem (`src/services/MCPClient.ts`) of the
cyra repository: a shallow embedding of its data model and operations, with
theorems settling the specification claims about request correlation,
timeouts, tool-catalog merging, dispatch, SSE parsing, and shutdown.
-/

namespace Cyra

/-! ## A small JSON value model

Mirrors the JavaScript values the client inspects: objects with string keys,
arrays, primitives.  Field access and truthiness follow JavaScript semantics
as used by the source. -/

inductive Json where
  | null : Json
  | bool (b : Bool) : Json
  | num (n : Int) : Json
  | str (s : String) : Json
  | arr (elems : List Json) : Json
  | obj (fields : List (String × Json)) : Json

/-- JavaScript property read `j[k]` on an object; `none` models `undefined`
(absent property, or access on a non-object). -/
def jsGetField (j : Json) (k : String) : Option Json :=
  match j with
  | .obj fs => (fs.find? (fun p => p.1 == k)).map (fun p => p.2)
  | _ => none

/-- JavaScript `k in j` membership test (only meaningful on objects). -/
def jsHasField (j : Json) (k : String) : Bool :=
  (jsGetField j k).isSome

/-- JavaScript truthiness of a parsed-JSON value. -/
def truthy : Json → Bool
  | .null => false
  | .bool b => b
  | .num n => n != 0
  | .str s => s != ""
  | .arr _ => true
  | .obj _ => true

/-- Whether the value is a JS object in the `typeof x === "object"` sense for
non-null parsed JSON (objects and arrays). -/
def jsIsObject : Json → Bool
  | .obj _ => true
  | .arr _ => true
  | _ => false

/-- Models `JSON.stringify` on parsed-JSON values (string escaping elided);
used only as the fallback error text in `handleMCPResponse`. -/
def jsonStringify : Json → String
  | .null => "null"
  | .bool true => "true"
  | .bool false => "false"
  | .num n => toString n
  | .str s => "\"" ++ s ++ "\""
  | .arr xs => "[" ++ String.intercalate "," (xs.attach.map (fun x => jsonStringify x.1)) ++ "]"
  | .obj fs => "\x7b" ++
      String.intercalate ","
        (fs.attach.map (fun p => "\"" ++ p.1.1 ++ "\":" ++ jsonStringify p.1.2)) ++
      "\x7d"
decreasing_by
  · simp only [Json.arr.sizeOf_spec]
    have h := List.sizeOf_lt_of_mem x.2
    omega
  · simp only [Json.obj.sizeOf_spec]
    have h := List.sizeOf_lt_of_mem p.2
    have h2 : sizeOf p.1.2 < sizeOf p.1 := by
      obtain ⟨⟨a, b⟩, hp⟩ := p
      simp only [Prod.mk.sizeOf_spec]
      omega
    omega

/-- JavaScript `String(x)` coercion of a parsed-JSON value, as applied by
`new Error(x)` to a non-string message. -/
def jsToString : Json → String
  | .str s => s
  | .num n => toString n
  | .bool true => "true"
  | .bool false => "false"
  | .null => "null"
  | j => jsonStringify j

/-! ## Request correlation and timeout engine

One `InstState` models the mutable per-provider fields of an
`MCPServerInstance` relevant to correlation: `requestId`, the
`pendingRequests` map (insertion-ordered, each entry carrying the timeout
chosen at registration), and — as accounting visible to the caller of the
promise — which request ids have had their `resolve` / `reject` callback
fired.  `sentIds` records the ids issued by `sendMCPRequest` (the stdio
path); `processAlive` tracks whether the spawned subprocess is running.

Events model the atomic turns of the single-threaded event loop:
  * `send m` — `sendMCPRequest` registers a pending entry under the next id
    with its method-dependent timeout and writes the request line to stdin;
  * `httpSend m` — `sendStreamableHTTPRequest` takes the next id and issues
    a `fetch`; it touches no pending entry and arms no timer;
  * `response id isError` — a stdout line parsed to a JSON-RPC response is
    handed to `handleMCPResponse`: a matching pending entry is deleted and
    then settled (its settle wrapper clears the timer); otherwise dropped;
  * `timerFire id` — the `setTimeout` armed for `id` fires: the entry is
    deleted from the map and the request rejected.  A timer cleared by an
    earlier settlement never fires, which the step models by the pending
    membership guard (an entry's timer is armed exactly while the entry is
    in the map);
  * `teardown` — `shutdown` kills the subprocess; it does not touch the
    pending map or the timers. -/

/-- Timeout in milliseconds chosen by `sendMCPRequest`:
`method === "tools/call" ? 30000 : 10000`. -/
def timeoutFor (method : String) : Nat :=
  if method == "tools/call" then 30000 else 10000

structure InstState where
  requestId : Nat
  pending : List (Nat × Nat)
  resolves : List Nat
  rejects : List Nat
  sentIds : List Nat
  processAlive : Bool
deriving Repr, DecidableEq

/-- Fresh correlation state of a just-created server instance
(`requestId = 0`, empty `pendingRequests`). -/
def inst0 : InstState := ⟨0, [], [], [], [], true⟩

inductive Ev where
  | send (method : String)
  | httpSend (method : String)
  | response (id : Nat) (isError : Bool)
  | timerFire (id : Nat)
  | teardown
deriving Repr, DecidableEq

/-- Ids currently present in the pending-request map. -/
def pendingIds (s : InstState) : List Nat := s.pending.map Prod.fst

def step (s : InstState) : Ev → InstState
  | .send m =>
      { s with requestId := s.requestId + 1,
               pending := s.pending ++ [(s.requestId + 1, timeoutFor m)],
               sentIds := s.sentIds ++ [s.requestId + 1] }
  | .httpSend _ => { s with requestId := s.requestId + 1 }
  | .response id isErr =>
      if id ∈ pendingIds s then
        { s with pending := s.pending.filter (fun p => p.1 != id),
                 resolves := if isErr then s.resolves else s.resolves ++ [id],
                 rejects := if isErr then s.rejects ++ [id] else s.rejects }
      else s
  | .timerFire id =>
      if id ∈ pendingIds s then
        { s with pending := s.pending.filter (fun p => p.1 != id),
                 rejects := s.rejects ++ [id] }
      else s
  | .teardown => { s with processAlive := false }

/-- Run a trace of event-loop turns from a state. -/
def run (s : InstState) (es : List Ev) : InstState := es.foldl step s

/-- How many times the resolve or reject callback of request `id` has fired. -/
def settleCount (s : InstState) (id : Nat) : Nat :=
  s.resolves.count id + s.rejects.count id

/-! ## Settling values: `handleMCPResponse`, SSE parsing, HTTP responses -/

/-- Error text computed by `handleMCPResponse` when rejecting:
`response.error.message || JSON.stringify(response.error)`. -/
def mcpErrorText (e : Json) : String :=
  match jsGetField e "message" with
  | some m => if truthy m then jsToString m else jsonStringify e
  | none => jsonStringify e

/-- The settling decision of `handleMCPResponse` for a response whose id
matches a pending request: a truthy `error` field rejects with the
provider-supplied message, otherwise the request resolves with the `result`
field (`none` models an absent `result`). -/
def handleMCPResponseSettle (resp : Json) : Except String (Option Json) :=
  match jsGetField resp "error" with
  | some e =>
      if truthy e then .error (mcpErrorText e)
      else .ok (jsGetField resp "result")
  | none => .ok (jsGetField resp "result")

/-- One line of a server-sent-events body after splitting the chunk buffer
on newlines.  `JSON.parse` of a `data: ` payload is represented by its
outcome: `data (some j)` parses to `j`, `data none` fails to parse (dropped
with a debug log). -/
inductive SSELine where
  | blank : SSELine
  | comment (rest : String) : SSELine
  | data (parsed : Option Json) : SSELine
  | other (line : String) : SSELine

/-- The `events` array accumulated by `parseSSEResponse`: each `data: ` line
whose payload parses as JSON is pushed in stream order; blank lines, `:`
comment lines, other lines, and unparsable payloads contribute nothing. -/
def collectSSEEvents (lines : List SSELine) : List Json :=
  lines.foldl (fun acc l =>
    match l with
    | .data (some j) => acc ++ [j]
    | _ => acc) []

/-- Message of the error thrown by `parseSSEResponse`:
`new Error(lastEvent.error.message)` (an absent message yields an empty
Error message). -/
def sseErrorText (e : Json) : String :=
  match jsGetField e "message" with
  | some m => jsToString m
  | none => ""

/-- Models `parseSSEResponse` once the stream has ended: the last
accumulated event decides the outcome — its `result` field if present, else
a thrown error from its `error` field, else the event itself; an empty
event list yields `null`. -/
def parseSSEResponse (lines : List SSELine) : Except String Json :=
  match (collectSSEEvents lines).getLast? with
  | none => .ok .null
  | some lastEvent =>
      match jsGetField lastEvent "result" with
      | some r => .ok r
      | none =>
          match jsGetField lastEvent "error" with
          | some e => .error (sseErrorText e)
          | none => .ok lastEvent

/-- The JSON-RPC envelope unwrap at the end of `sendStreamableHTTPRequest`:
a truthy object with both a `result` and a `jsonrpc` property is replaced by
its `result` field; anything else is returned as is. -/
def unwrapEnvelope (result : Json) : Json :=
  if truthy result && jsIsObject result &&
      jsHasField result "result" && jsHasField result "jsonrpc" then
    (jsGetField result "result").getD .null
  else result

/-- The body of an HTTP response, as branched on its `Content-Type`. -/
inductive HTTPBody where
  | json (j : Json) : HTTPBody
  | eventStream (lines : List SSELine) : HTTPBody

/-- Outcome of `sendStreamableHTTPRequest` once `fetch` has returned: a
non-2xx status throws `HTTP <status>: <statusText>`; otherwise the body is
parsed per content type (`parseSSEResponse` for an event stream, else
`response.json()`) and the envelope unwrap is applied.  `Except.error`
models the returned promise rejecting; `Except.ok` models the caller
receiving the value as a success. -/
def sendStreamableHTTPRequestOutcome (statusOk : Bool) (status : Nat)
    (statusText : String) (body : HTTPBody) : Except String Json :=
  if statusOk then
    match body with
    | .eventStream lines =>
        match parseSSEResponse lines with
        | .error m => .error m
        | .ok r => .ok (unwrapEnvelope r)
    | .json j => .ok (unwrapEnvelope j)
  else .error ("HTTP " ++ toString status ++ ": " ++ statusText)

/-! ## Tool catalog and invocation dispatch -/

/-- A discovered tool as normalized by the `discoverTools*` methods. -/
structure Tool where
  name : String
  description : String
  inputSchema : Option Json

/-- One registered provider as seen by catalog merge and dispatch: its
config name and type, its discovered tool list, and its `initialized` flag
(called `inited` here).  The registry is the insertion-ordered list of
these, matching `Map.values()` iteration order. -/
structure ServerInst where
  name : String
  stype : String
  tools : List Tool
  inited : Bool

/-- Models `getTools`: the loop pushes each initialized server's tools, in
registration order, onto one list. -/
def getTools (servers : List ServerInst) : List Tool :=
  servers.foldl (fun acc s => if s.inited then acc ++ s.tools else acc) []

/-- A tool definition in the Gemini API shape. -/
structure GeminiToolDef where
  name : String
  description : String
  parameters : Json

/-- The fallback parameters schema used by `getToolDefinitionsForGemini`. -/
def defaultParamsSchema : Json :=
  .obj [("type", .str "object"), ("properties", .obj [])]

/-- Models `getToolDefinitionsForGemini`: each merged tool mapped to the
Gemini shape, with a falsy or absent input schema replaced by the default
empty object schema. -/
def getToolDefinitionsForGemini (servers : List ServerInst) : List GeminiToolDef :=
  (getTools servers).map (fun t =>
    { name := t.name, description := t.description,
      parameters :=
        match t.inputSchema with
        | some s => if truthy s then s else defaultParamsSchema
        | none => defaultParamsSchema })

/-- The scan in `executeTool`: the first registered server whose tool list
contains the name.  The `initialized` flag is not consulted. -/
def executeToolRoute (servers : List ServerInst) (toolName : String) :
    Option ServerInst :=
  servers.find? (fun s => (s.tools.find? (fun t => t.name == toolName)).isSome)

/-- A transport write performed on behalf of a tool invocation. -/
structure SendRec where
  server : String
  method : String
  tool : String
deriving Repr, DecidableEq

/-- Models `executeTool`: route by linear scan, then issue one `tools/call`
through the owning server's transport; an unknown name rejects with
`Tool not found: <name>` before any transport write; a server of an
unsupported type rejects without a write. -/
def executeToolModel (servers : List ServerInst) (toolName : String) :
    Except String String × List SendRec :=
  match executeToolRoute servers toolName with
  | none => (.error ("Tool not found: " ++ toolName), [])
  | some s =>
      if s.stype == "stdio" || s.stype == "sse" || s.stype == "streamable-http" then
        (.ok s.name, [⟨s.name, "tools/call", toolName⟩])
      else (.error ("Unsupported server type: " ++ s.stype), [])

/-- Models `getInitializedServersCount`. -/
def getInitedServersCount (servers : List ServerInst) : Nat :=
  (servers.filter (fun s => s.inited)).length

/-! ## Provider registry lifecycle -/

/-- The externally supplied per-server configuration (`config/mcp.ts`);
`stype` stands for the `type` field. -/
structure MCPServerConfig where
  name : String
  stype : String
  command : Option String
  args : List String
  url : Option String

/-- The client configuration: the server list and the `enabled` flag. -/
structure MCPConfig where
  servers : List MCPServerConfig
  enabled : Bool

/-- Environment-determined outcome of one server's bring-up attempt:
either the transport comes up (with the tools discovery eventually leaves
on the instance; a failed discovery leaves `[]`), or spawning or the
handshake throws. -/
inductive InitOutcome where
  | ok (tools : List Tool)
  | fail (msg : String)

/-- JavaScript `Map.set` on the name-keyed registry: replaces in place when
the key exists, otherwise appends. -/
def mapSet (m : List ServerInst) (v : ServerInst) : List ServerInst :=
  if m.any (fun s => s.name == v.name) then
    m.map (fun s => if s.name == v.name then v else s)
  else m ++ [v]

/-- Models the loop of `MCPClient.initialize` over configured servers: each
attempt either completes — `initializeServer` stores the instance, marked
initialized — or throws, which the loop catches and logs, leaving the
registry untouched (`servers.set` only runs after a successful bring-up). -/
def initServers (items : List (MCPServerConfig × InitOutcome)) : List ServerInst :=
  items.foldl (fun acc item =>
    match item.2 with
    | .ok ts => mapSet acc ⟨item.1.name, item.1.stype, ts, true⟩
    | .fail _ => acc) []

/-- Transport I/O performed while attempting to bring up one configured
server: a stdio server spawns its command, an HTTP server POSTs its
handshake request; a config rejected before transport setup performs
none. -/
inductive InitEffect where
  | spawnProc (command : String) (args : List String)
  | httpPost (url : String) (method : String)
deriving Repr, DecidableEq

def attemptEffects (cfg : MCPServerConfig) : List InitEffect :=
  if cfg.stype == "stdio" then
    match cfg.command with
    | some c => [.spawnProc c cfg.args]
    | none => []
  else if cfg.stype == "sse" || cfg.stype == "streamable-http" then
    match cfg.url with
    | some u => [.httpPost u "initialize"]
    | none => []
  else []

/-- Models `MCPClient.initialize` from a fresh client: a disabled config
returns before the loop touches anything; otherwise every configured server
is attempted with its environment-determined outcome.  Returns the registry
and the transport effects of the attempts. -/
def initClient (config : MCPConfig) (outcomes : List InitOutcome) :
    List ServerInst × List InitEffect :=
  if config.enabled then
    (initServers (config.servers.zip outcomes),
     config.servers.foldl (fun acc c => acc ++ attemptEffects c) [])
  else ([], [])

/-! ## Shutdown -/

/-- A provider instance with its lifecycle state: whether a subprocess was
spawned for it and is still running, plus its correlation state. -/
structure FullInst where
  name : String
  stype : String
  hasProcess : Bool
  processAlive : Bool
  corr : InstState
deriving Repr, DecidableEq

/-- Per-server action of `shutdown`:
`if (server.process) server.process.kill()`. -/
def killInst (i : FullInst) : FullInst :=
  if i.hasProcess then { i with processAlive := false } else i

/-- The client: the name-keyed registry of provider instances. -/
structure ClientSt where
  servers : List FullInst
deriving Repr, DecidableEq

/-- Models `shutdown()`: kill each stored server's subprocess, then clear
the registry.  The second component is the final state of the instances the
registry dropped — what still-unsettled callers continue to observe. -/
def shutdownEff (c : ClientSt) : ClientSt × List FullInst :=
  (⟨[]⟩, c.servers.map killInst)

/-- Correlation invariant: pending and settled ids were all issued by
`sendMCPRequest`; issued ids lie in `1 .. requestId`; and every issued id is
either still pending with no callback fired, or no longer pending with its
callback fired exactly once. -/
def SettleInv (s : InstState) : Prop :=
  (∀ i ∈ pendingIds s, i ∈ s.sentIds) ∧
  (∀ i ∈ s.resolves, i ∈ s.sentIds) ∧
  (∀ i ∈ s.rejects, i ∈ s.sentIds) ∧
  (∀ i ∈ s.sentIds, 1 ≤ i ∧ i ≤ s.requestId) ∧
  (∀ i ∈ s.sentIds,
    (i ∈ pendingIds s → settleCount s i = 0) ∧
    (i ∉ pendingIds s → settleCount s i = 1))

theorem settleInv_inst0 : SettleInv inst0 := by
  refine ⟨?_, ?_, ?_, ?_, ?_⟩ <;> intro i hi <;> simp [inst0, pendingIds] at hi

theorem pendingIds_filterNe (l : List (Nat × Nat)) (id : Nat) :
    (l.filter (fun p => p.1 != id)).map Prod.fst
      = (l.map Prod.fst).filter (fun x => x != id) := by
  induction l with
  | nil => rfl
  | cons a l ih =>
      simp only [List.filter_cons, List.map_cons]
      by_cases h : a.1 = id
      · simp [h, ih]
      · simp [h, ih]

theorem settleInv_step (s : InstState) (e : Ev) (h : SettleInv s) :
    SettleInv (step s e) := by
  obtain ⟨h1, h2, h3, h4, h5⟩ := h
  cases e with
  | teardown => exact ⟨h1, h2, h3, h4, h5⟩
  | httpSend m =>
      have e1 : pendingIds (step s (.httpSend m)) = pendingIds s := by
        simp [step, pendingIds]
      refine ⟨?_, ?_, ?_, ?_, ?_⟩
      · intro i hi; rw [e1] at hi; exact h1 i hi
      · intro i hi; exact h2 i hi
      · intro i hi; exact h3 i hi
      · intro i hi
        have := h4 i hi
        simp only [step]
        omega
      · intro i hi
        have hc : settleCount (step s (.httpSend m)) i = settleCount s i := by
          simp [step, settleCount]
        rw [e1, hc]
        exact h5 i hi
  | send m =>
      have hfresh : ∀ i ∈ s.sentIds, i ≠ s.requestId + 1 := by
        intro i hi heq
        have := h4 i hi
        omega
      have hfresh_res : s.requestId + 1 ∉ s.resolves :=
        fun hm => hfresh _ (h2 _ hm) rfl
      have hfresh_rej : s.requestId + 1 ∉ s.rejects :=
        fun hm => hfresh _ (h3 _ hm) rfl
      have hpids : pendingIds (step s (.send m)) = pendingIds s ++ [s.requestId + 1] := by
        simp [step, pendingIds]
      have hsent : (step s (.send m)).sentIds = s.sentIds ++ [s.requestId + 1] := by
        simp [step]
      have hcount : ∀ i, settleCount (step s (.send m)) i = settleCount s i := by
        intro i; simp [step, settleCount]
      refine ⟨?_, ?_, ?_, ?_, ?_⟩
      · intro i hi
        rw [hpids] at hi
        rw [hsent]
        rcases List.mem_append.1 hi with hi | hi
        · exact List.mem_append.2 (Or.inl (h1 i hi))
        · exact List.mem_append.2 (Or.inr hi)
      · intro i hi
        rw [hsent]
        simp only [step] at hi
        exact List.mem_append.2 (Or.inl (h2 i hi))
      · intro i hi
        rw [hsent]
        simp only [step] at hi
        exact List.mem_append.2 (Or.inl (h3 i hi))
      · intro i hi
        rw [hsent] at hi
        simp only [step]
        rcases List.mem_append.1 hi with hi | hi
        · have := h4 i hi; omega
        · simp only [List.mem_singleton] at hi; omega
      · intro i hi
        rw [hsent] at hi
        have hpmem : i ∈ pendingIds (step s (.send m)) ↔
            (i ∈ pendingIds s ∨ i = s.requestId + 1) := by
          rw [hpids]; simp
        rcases List.mem_append.1 hi with hi | hi
        · have hne := hfresh i hi
          constructor
          · intro hp
            rw [hcount]
            rcases hpmem.1 hp with hp' | hp'
            · exact (h5 i hi).1 hp'
            · exact absurd hp' hne
          · intro hp
            rw [hcount]
            exact (h5 i hi).2 (fun hin => hp (hpmem.2 (Or.inl hin)))
        · simp only [List.mem_singleton] at hi
          subst hi
          constructor
          · intro _
            rw [hcount]
            simp [settleCount, List.count_eq_zero_of_not_mem hfresh_res,
              List.count_eq_zero_of_not_mem hfresh_rej]
          · intro hp
            exact absurd (hpmem.2 (Or.inr rfl)) hp
  | response id isErr =>
      by_cases hmem : id ∈ pendingIds s
      · have hid_sent : id ∈ s.sentIds := h1 id hmem
        have hzero : settleCount s id = 0 := (h5 id hid_sent).1 hmem
        have hmem2 : id ∈ List.map Prod.fst s.pending := hmem
        have hstep : step s (.response id isErr) =
            { s with pending := s.pending.filter (fun p => p.1 != id),
                     resolves := if isErr then s.resolves else s.resolves ++ [id],
                     rejects := if isErr then s.rejects ++ [id] else s.rejects } := by
          simp only [step, pendingIds]
          rw [if_pos hmem2]
        rw [hstep]
        have hpids : pendingIds
            { s with pending := s.pending.filter (fun p => p.1 != id),
                     resolves := if isErr then s.resolves else s.resolves ++ [id],
                     rejects := if isErr then s.rejects ++ [id] else s.rejects }
            = (pendingIds s).filter (fun x => x != id) := by
          simp [pendingIds, pendingIds_filterNe]
        have hpmem : ∀ i : Nat, (i ∈ (pendingIds s).filter (fun x => x != id)) ↔
            (i ∈ pendingIds s ∧ ¬ i = id) := by
          intro i; simp [List.mem_filter]
        have hcount : ∀ i, settleCount
            { s with pending := s.pending.filter (fun p => p.1 != id),
                     resolves := if isErr then s.resolves else s.resolves ++ [id],
                     rejects := if isErr then s.rejects ++ [id] else s.rejects } i
            = settleCount s i + (if i = id then 1 else 0) := by
          intro i
          by_cases hisErr : isErr <;> by_cases hii : i = id <;>
            (simp [settleCount, hisErr, hii, List.count_append]; try omega)
        refine ⟨?_, ?_, ?_, ?_, ?_⟩
        · intro i hi
          rw [hpids] at hi
          exact h1 i ((hpmem i).1 hi).1
        · intro i hi
          simp only at hi
          by_cases hisErr : isErr
          · rw [if_pos hisErr] at hi
            exact h2 i hi
          · rw [if_neg hisErr] at hi
            rcases List.mem_append.1 hi with hi | hi
            · exact h2 i hi
            · simp only [List.mem_singleton] at hi
              subst hi; exact hid_sent
        · intro i hi
          simp only at hi
          by_cases hisErr : isErr
          · rw [if_pos hisErr] at hi
            rcases List.mem_append.1 hi with hi | hi
            · exact h3 i hi
            · simp only [List.mem_singleton] at hi
              subst hi; exact hid_sent
          · rw [if_neg hisErr] at hi
            exact h3 i hi
        · intro i hi
          exact h4 i hi
        · intro i hi
          rw [hpids, hcount i]
          by_cases hii : i = id
          · subst hii
            constructor
            · intro hp
              exact absurd rfl ((hpmem i).1 hp).2
            · intro _
              simp [hzero]
          · simp only [hii, ite_false, Nat.add_zero]
            constructor
            · intro hp
              exact (h5 i hi).1 ((hpmem i).1 hp).1
            · intro hp
              exact (h5 i hi).2 (fun hin => hp ((hpmem i).2 ⟨hin, hii⟩))
      · have hmem2 : ¬ id ∈ List.map Prod.fst s.pending := hmem
        have hstep : step s (.response id isErr) = s := by
          simp only [step, pendingIds]
          rw [if_neg hmem2]
        rw [hstep]
        exact ⟨h1, h2, h3, h4, h5⟩
  | timerFire id =>
      by_cases hmem : id ∈ pendingIds s
      · have hid_sent : id ∈ s.sentIds := h1 id hmem
        have hzero : settleCount s id = 0 := (h5 id hid_sent).1 hmem
        have hmem2 : id ∈ List.map Prod.fst s.pending := hmem
        have hstep : step s (.timerFire id) =
            { s with pending := s.pending.filter (fun p => p.1 != id),
                     rejects := s.rejects ++ [id] } := by
          simp only [step, pendingIds]
          rw [if_pos hmem2]
        rw [hstep]
        have hpids : pendingIds
            { s with pending := s.pending.filter (fun p => p.1 != id),
                     rejects := s.rejects ++ [id] }
            = (pendingIds s).filter (fun x => x != id) := by
          simp [pendingIds, pendingIds_filterNe]
        have hpmem : ∀ i : Nat, (i ∈ (pendingIds s).filter (fun x => x != id)) ↔
            (i ∈ pendingIds s ∧ ¬ i = id) := by
          intro i; simp [List.mem_filter]
        have hcount : ∀ i, settleCount
            { s with pending := s.pending.filter (fun p => p.1 != id),
                     rejects := s.rejects ++ [id] } i
            = settleCount s i + (if i = id then 1 else 0) := by
          intro i
          by_cases hii : i = id <;>
            (simp [settleCount, hii, List.count_append]; try omega)
        refine ⟨?_, ?_, ?_, ?_, ?_⟩
        · intro i hi
          rw [hpids] at hi
          exact h1 i ((hpmem i).1 hi).1
        · intro i hi
          exact h2 i hi
        · intro i hi
          simp only at hi
          rcases List.mem_append.1 hi with hi | hi
          · exact h3 i hi
          · simp only [List.mem_singleton] at hi
            subst hi; exact hid_sent
        · intro i hi
          exact h4 i hi
        · intro i hi
          rw [hpids, hcount i]
          by_cases hii : i = id
          · subst hii
            constructor
            · intro hp
              exact absurd rfl ((hpmem i).1 hp).2
            · intro _
              simp [hzero]
          · simp only [hii, ite_false, Nat.add_zero]
            constructor
            · intro hp
              exact (h5 i hi).1 ((hpmem i).1 hp).1
            · intro hp
              exact (h5 i hi).2 (fun hin => hp ((hpmem i).2 ⟨hin, hii⟩))
      · have hmem2 : ¬ id ∈ List.map Prod.fst s.pending := hmem
        have hstep : step s (.timerFire id) = s := by
          simp only [step, pendingIds]
          rw [if_neg hmem2]
        rw [hstep]
        exact ⟨h1, h2, h3, h4, h5⟩

theorem settleInv_run (es : List Ev) (s : InstState) (h : SettleInv s) :
    SettleInv (run s es) := by
  induction es generalizing s with
  | nil => exact h
  | cons e es ih => exact ih (step s e) (settleInv_step s e h)

/-! ## Claim C1: pending requests settle exactly once -/

/-- Claim C1: for every request sent through a provider's transport, the
settle callbacks fire at most once over any trace of event-loop turns
(never both resolve and reject, never twice); a request has settled
exactly once precisely when its entry is no longer in the pending map — so
the entry is removed at the very step that settles it, whether that step
is a matching response or a timeout, and teardown steps preserve the
invariant; and on any trace that drains the pending map, every sent
request has settled exactly once. -/
theorem pendingRequest_settles_exactly_once (es : List Ev) (id : Nat)
    (hid : id ∈ (run inst0 es).sentIds) :
    settleCount (run inst0 es) id ≤ 1 ∧
    (settleCount (run inst0 es) id = 1 ↔ id ∉ pendingIds (run inst0 es)) ∧
    (pendingIds (run inst0 es) = [] → settleCount (run inst0 es) id = 1) := by
  obtain ⟨h1, h2, h3, h4, h5⟩ := settleInv_run es inst0 settleInv_inst0
  have hd := h5 id hid
  by_cases hp : id ∈ pendingIds (run inst0 es)
  · have h0 := hd.1 hp
    refine ⟨by omega, ⟨fun h' => by omega, fun hnp => absurd hp hnp⟩, ?_⟩
    intro hemp
    rw [hemp] at hp
    simp at hp
  · have h1' := hd.2 hp
    exact ⟨by omega, ⟨fun _ => hp, fun _ => h1'⟩, fun _ => h1'⟩

theorem pendingRequest_settles_exactly_once_witness :
    (1 ∈ (run inst0 [Ev.send "tools/list", Ev.response 1 false]).sentIds) ∧
    (settleCount (run inst0 [Ev.send "tools/list", Ev.response 1 false]) 1 ≤ 1 ∧
     (settleCount (run inst0 [Ev.send "tools/list", Ev.response 1 false]) 1 = 1 ↔
        1 ∉ pendingIds (run inst0 [Ev.send "tools/list", Ev.response 1 false])) ∧
     (pendingIds (run inst0 [Ev.send "tools/list", Ev.response 1 false]) = [] →
        settleCount (run inst0 [Ev.send "tools/list", Ev.response 1 false]) 1 = 1)) :=
  ⟨by decide, pendingRequest_settles_exactly_once
    [Ev.send "tools/list", Ev.response 1 false] 1 (by decide)⟩

/-! ## Claim C2: deadlines per outbound call -/

/-- Claim C2 counterexample: an outbound call on the streamable-HTTP
transport takes the next request id but registers no PendingRequest — the
pending map stays empty, so there is no deadline to elapse and no entry to
evict — contradicting the claim that every outbound call on every
transport kind registers a PendingRequest with a deadline. -/
theorem httpSend_registers_no_pendingRequest :
    (step inst0 (Ev.httpSend "tools/call")).pending = [] ∧
    (step inst0 (Ev.httpSend "tools/call")).requestId = 1 :=
  ⟨rfl, rfl⟩

/-- Claim C2 amended: on the stdio transport every outbound call registers
a PendingRequest whose deadline is 30000 ms for `tools/call` and 10000 ms
for every other method, and when its timer fires the entry is evicted from
the pending map and the caller's promise rejected; on the streamable-HTTP
transport an outbound call registers no PendingRequest and arms no
deadline. -/
theorem sendMCPRequest_registers_deadline (s : InstState) (m : String) (id tm : Nat)
    (hp : (id, tm) ∈ s.pending) :
    ((s.requestId + 1, timeoutFor m) ∈ (step s (Ev.send m)).pending ∧
      timeoutFor "tools/call" = 30000 ∧
      (m ≠ "tools/call" → timeoutFor m = 10000)) ∧
    (id ∉ pendingIds (step s (Ev.timerFire id)) ∧
      (step s (Ev.timerFire id)).rejects = s.rejects ++ [id]) ∧
    (step s (Ev.httpSend m)).pending = s.pending := by
  have hidmem : id ∈ pendingIds s := List.mem_map.2 ⟨(id, tm), hp, rfl⟩
  have hidmem' : id ∈ List.map Prod.fst s.pending := hidmem
  refine ⟨⟨?_, rfl, ?_⟩, ⟨?_, ?_⟩, rfl⟩
  · simp [step]
  · intro hm
    simp [timeoutFor, hm]
  · have hstep : step s (.timerFire id) =
        { s with pending := s.pending.filter (fun p => p.1 != id),
                 rejects := s.rejects ++ [id] } := by
      simp only [step, pendingIds]
      rw [if_pos hidmem']
    rw [hstep]
    simp [pendingIds, List.mem_filter]
  · simp only [step, pendingIds]
    rw [if_pos hidmem']

theorem sendMCPRequest_registers_deadline_witness :
    ((1, 10000) ∈ (InstState.mk 1 [(1, 10000)] [] [] [1] true).pending) ∧
    ((((InstState.mk 1 [(1, 10000)] [] [] [1] true).requestId + 1,
        timeoutFor "tools/call") ∈
        (step (InstState.mk 1 [(1, 10000)] [] [] [1] true) (Ev.send "tools/call")).pending ∧
      timeoutFor "tools/call" = 30000 ∧
      ("tools/call" ≠ "tools/call" → timeoutFor "tools/call" = 10000)) ∧
     (1 ∉ pendingIds (step (InstState.mk 1 [(1, 10000)] [] [] [1] true) (Ev.timerFire 1)) ∧
      (step (InstState.mk 1 [(1, 10000)] [] [] [1] true) (Ev.timerFire 1)).rejects
        = (InstState.mk 1 [(1, 10000)] [] [] [1] true).rejects ++ [1]) ∧
     (step (InstState.mk 1 [(1, 10000)] [] [] [1] true) (Ev.httpSend "tools/call")).pending
        = (InstState.mk 1 [(1, 10000)] [] [] [1] true).pending) :=
  ⟨by decide, sendMCPRequest_registers_deadline
    (InstState.mk 1 [(1, 10000)] [] [] [1] true) "tools/call" 1 10000 (by decide)⟩

/-! ## Claim C10: a disabled configuration does nothing -/

/-- Claim C10: when the configuration's `enabled` flag is false,
initialization returns before the server loop — the registry stays empty
and no spawn or HTTP effect is produced — so the initialized-server count
is 0 and the merged tool catalog is empty. -/
theorem initClient_disabled (config : MCPConfig) (outcomes : List InitOutcome)
    (h : config.enabled = false) :
    initClient config outcomes = ([], []) ∧
    getInitedServersCount (initClient config outcomes).1 = 0 ∧
    getTools (initClient config outcomes).1 = [] := by
  have hz : initClient config outcomes = ([], []) := by
    simp [initClient, h]
  exact ⟨hz, by rw [hz]; rfl, by rw [hz]; rfl⟩

theorem initClient_disabled_witness :
    ((MCPConfig.mk [MCPServerConfig.mk "filesystem" "stdio" (some "npx") [] none] false).enabled
        = false) ∧
    (initClient (MCPConfig.mk [MCPServerConfig.mk "filesystem" "stdio" (some "npx") [] none] false)
        [] = ([], []) ∧
     getInitedServersCount
        (initClient
          (MCPConfig.mk [MCPServerConfig.mk "filesystem" "stdio" (some "npx") [] none] false)
          []).1 = 0 ∧
     getTools
        (initClient
          (MCPConfig.mk [MCPServerConfig.mk "filesystem" "stdio" (some "npx") [] none] false)
          []).1 = []) :=
  ⟨rfl, initClient_disabled
    (MCPConfig.mk [MCPServerConfig.mk "filesystem" "stdio" (some "npx") [] none] false)
    [] rfl⟩

/-! ## Claim C3: dispatch and readiness -/

/-- Claim C3 counterexample: the first-registered provider is not ready
(its process has exited, clearing `initialized`) yet still holds `search`
in its catalog; a second, ready provider also holds `search`.  Dispatch
selects the non-ready first provider, so a provider that is not Ready can
be selected, and the first *Ready* owner is not the one routed to. -/
theorem executeTool_selects_non_ready :
    (executeToolRoute
        [ServerInst.mk "dead" "stdio" [Tool.mk "search" "" none] false,
         ServerInst.mk "live" "stdio" [Tool.mk "search" "" none] true]
        "search").map (fun s => (s.name, s.inited))
      = some ("dead", false) := rfl

/-- Claim C3 amended: dispatch scans all registered providers in
registration order, ignoring the `initialized` flag, and routes to the
first provider whose catalog contains the name: if no earlier provider
owns the name and `s` does, `s` is selected whatever its readiness. -/
theorem executeTool_routes_first_owner (pre post : List ServerInst)
    (s : ServerInst) (n : String)
    (hpre0 : pre.all (fun s' => !(s'.tools.find? (fun t => t.name == n)).isSome) = true)
    (hs : (s.tools.find? (fun t => t.name == n)).isSome = true) :
    executeToolRoute (pre ++ s :: post) n = some s := by
  have hpre : ∀ s' ∈ pre, (s'.tools.find? (fun t => t.name == n)).isSome = false := by
    intro s' hs'
    have := (List.all_eq_true.1 hpre0) s' hs'
    simpa using this
  clear hpre0
  induction pre with
  | nil =>
      rw [List.nil_append]
      unfold executeToolRoute
      exact List.find?_cons_of_pos _ hs
  | cons a pre ih =>
      have ha := hpre a (List.mem_cons_self a pre)
      rw [List.cons_append]
      unfold executeToolRoute
      have hskip : List.find?
          (fun s => (s.tools.find? (fun t => t.name == n)).isSome)
          (a :: (pre ++ s :: post))
          = List.find?
              (fun s => (s.tools.find? (fun t => t.name == n)).isSome)
              (pre ++ s :: post) :=
        List.find?_cons_of_neg _ (by simp [ha])
      rw [hskip]
      exact ih (fun s' hs' => hpre s' (List.mem_cons_of_mem a hs'))

theorem executeTool_routes_first_owner_witness :
    ([ServerInst.mk "other" "stdio" [Tool.mk "echo" "" none] true].all
        (fun s' => !(s'.tools.find? (fun t => t.name == "search")).isSome) = true) ∧
    (((ServerInst.mk "dead" "stdio" [Tool.mk "search" "" none] false).tools.find?
        (fun t => t.name == "search")).isSome = true) ∧
    executeToolRoute
        ([ServerInst.mk "other" "stdio" [Tool.mk "echo" "" none] true] ++
          ServerInst.mk "dead" "stdio" [Tool.mk "search" "" none] false ::
            [ServerInst.mk "live" "stdio" [Tool.mk "search" "" none] true])
        "search"
      = some (ServerInst.mk "dead" "stdio" [Tool.mk "search" "" none] false) :=
  ⟨by decide, by decide,
    executeTool_routes_first_owner
      [ServerInst.mk "other" "stdio" [Tool.mk "echo" "" none] true]
      [ServerInst.mk "live" "stdio" [Tool.mk "search" "" none] true]
      (ServerInst.mk "dead" "stdio" [Tool.mk "search" "" none] false)
      "search" (by decide) (by decide)⟩

/-! ## Claim C4: name collisions in the merged catalog -/

theorem getTools_foldl_acc (servers : List ServerInst) (acc : List Tool) :
    servers.foldl (fun acc s => if s.inited then acc ++ s.tools else acc) acc
      = acc ++ getTools servers := by
  induction servers generalizing acc with
  | nil => simp [getTools]
  | cons s rest ih =>
      have hcons : getTools (s :: rest)
          = (if s.inited then s.tools else []) ++ getTools rest := by
        show List.foldl _ _ (s :: rest) = _
        rw [List.foldl_cons, ih]
        by_cases h : s.inited <;> simp [h]
      show List.foldl _ _ (s :: rest) = _
      rw [List.foldl_cons, ih, hcons]
      by_cases h : s.inited <;> simp [h]

theorem getTools_cons (s : ServerInst) (rest : List ServerInst) :
    getTools (s :: rest) = (if s.inited then s.tools else []) ++ getTools rest := by
  show List.foldl _ _ (s :: rest) = _
  rw [List.foldl_cons, getTools_foldl_acc]
  by_cases h : s.inited <;> simp [h]

/-- Claim C4 counterexample: two ready providers both exposing `search`
yield a merged catalog with two entries named `search` (and two Gemini
definitions named `search`) — not exactly one. -/
theorem getTools_keeps_duplicate_names :
    ((getTools
        [ServerInst.mk "a" "stdio" [Tool.mk "search" "from a" none] true,
         ServerInst.mk "b" "stdio" [Tool.mk "search" "from b" none] true]).filter
        (fun t => t.name == "search")).length = 2 ∧
    ((getToolDefinitionsForGemini
        [ServerInst.mk "a" "stdio" [Tool.mk "search" "from a" none] true,
         ServerInst.mk "b" "stdio" [Tool.mk "search" "from b" none] true]).filter
        (fun d => d.name == "search")).length = 2 :=
  ⟨rfl, rfl⟩

/-- Claim C4 amended: the merged catalog is the concatenation of the ready
providers' catalogs with no deduplication — when two ready providers both
expose a name the catalog holds (at least) one entry from each — and an
invocation of that name routes to the first-registered owning provider. -/
theorem getTools_merge_concatenates (s1 s2 : ServerInst) (post : List ServerInst)
    (n : String) (h1 : s1.inited = true) (h2 : s2.inited = true)
    (ht1 : (s1.tools.find? (fun t => t.name == n)).isSome = true)
    (ht2 : (s2.tools.find? (fun t => t.name == n)).isSome = true) :
    2 ≤ ((getTools (s1 :: s2 :: post)).filter (fun t => t.name == n)).length ∧
    executeToolRoute (s1 :: s2 :: post) n = some s1 := by
  constructor
  · rw [getTools_cons, getTools_cons, if_pos h1, if_pos h2]
    rw [List.filter_append, List.filter_append, List.length_append, List.length_append]
    have p1 : 0 < (s1.tools.filter (fun t => t.name == n)).length := by
      obtain ⟨t, htm, htp⟩ := List.find?_isSome.1 ht1
      have hmem : t ∈ s1.tools.filter (fun t => t.name == n) :=
        List.mem_filter.2 ⟨htm, htp⟩
      exact List.length_pos.2 (List.ne_nil_of_mem hmem)
    have p2 : 0 < (s2.tools.filter (fun t => t.name == n)).length := by
      obtain ⟨t, htm, htp⟩ := List.find?_isSome.1 ht2
      have hmem : t ∈ s2.tools.filter (fun t => t.name == n) :=
        List.mem_filter.2 ⟨htm, htp⟩
      exact List.length_pos.2 (List.ne_nil_of_mem hmem)
    omega
  · unfold executeToolRoute
    exact List.find?_cons_of_pos _ ht1

theorem getTools_merge_concatenates_witness :
    ((ServerInst.mk "a" "stdio" [Tool.mk "search" "from a" none] true).inited = true) ∧
    ((ServerInst.mk "b" "stdio" [Tool.mk "search" "from b" none] true).inited = true) ∧
    (((ServerInst.mk "a" "stdio" [Tool.mk "search" "from a" none] true).tools.find?
        (fun t => t.name == "search")).isSome = true) ∧
    (((ServerInst.mk "b" "stdio" [Tool.mk "search" "from b" none] true).tools.find?
        (fun t => t.name == "search")).isSome = true) ∧
    (2 ≤ ((getTools
        [ServerInst.mk "a" "stdio" [Tool.mk "search" "from a" none] true,
         ServerInst.mk "b" "stdio" [Tool.mk "search" "from b" none] true]).filter
          (fun t => t.name == "search")).length ∧
      executeToolRoute
        [ServerInst.mk "a" "stdio" [Tool.mk "search" "from a" none] true,
         ServerInst.mk "b" "stdio" [Tool.mk "search" "from b" none] true] "search"
        = some (ServerInst.mk "a" "stdio" [Tool.mk "search" "from a" none] true)) :=
  ⟨rfl, rfl, rfl, rfl,
    getTools_merge_concatenates
      (ServerInst.mk "a" "stdio" [Tool.mk "search" "from a" none] true)
      (ServerInst.mk "b" "stdio" [Tool.mk "search" "from b" none] true)
      [] "search" rfl rfl rfl rfl⟩

/-! ## Claim C6: unknown tool name fails before any transport write -/

/-- Claim C6: when no registered provider's catalog contains the name, the
invocation rejects with `Tool not found: <name>` and the list of transport
writes is empty — no stdin write and no HTTP request. -/
theorem executeTool_unknown_no_transport (servers : List ServerInst) (n : String)
    (h : servers.all (fun s => s.tools.all (fun t => !(t.name == n))) = true) :
    executeToolModel servers n
      = (Except.error ("Tool not found: " ++ n), []) := by
  have hroute : executeToolRoute servers n = none := by
    unfold executeToolRoute
    rw [List.find?_eq_none]
    intro s hs
    have hall := (List.all_eq_true.1 h) s hs
    have hnone : s.tools.find? (fun t => t.name == n) = none := by
      rw [List.find?_eq_none]
      intro t ht
      have htall := (List.all_eq_true.1 hall) t ht
      simp only [Bool.not_eq_true'] at htall
      simp [htall]
    simp [hnone]
  unfold executeToolModel
  rw [hroute]

theorem executeTool_unknown_no_transport_witness :
    ([ServerInst.mk "a" "stdio" [Tool.mk "echo" "" none] true].all
        (fun s => s.tools.all (fun t => !(t.name == "missing"))) = true) ∧
    executeToolModel [ServerInst.mk "a" "stdio" [Tool.mk "echo" "" none] true] "missing"
      = (Except.error ("Tool not found: " ++ "missing"), []) :=
  ⟨by decide, executeTool_unknown_no_transport
    [ServerInst.mk "a" "stdio" [Tool.mk "echo" "" none] true] "missing" (by decide)⟩

/-! ## Claim C7: a failed provider is isolated -/

/-- Claim C7: a configured server whose bring-up attempt throws leaves the
registry exactly as if it were absent: it is not stored, so it is not
counted as initialized, contributes nothing to the merged catalog, and is
never routed to, while every other configured server's attempt is
processed identically. -/
theorem initServer_failure_isolated (pre post : List (MCPServerConfig × InitOutcome))
    (cfg : MCPServerConfig) (m : String) (n : String) :
    initServers (pre ++ (cfg, InitOutcome.fail m) :: post) = initServers (pre ++ post) ∧
    getInitedServersCount (initServers (pre ++ (cfg, InitOutcome.fail m) :: post))
      = getInitedServersCount (initServers (pre ++ post)) ∧
    getTools (initServers (pre ++ (cfg, InitOutcome.fail m) :: post))
      = getTools (initServers (pre ++ post)) ∧
    executeToolRoute (initServers (pre ++ (cfg, InitOutcome.fail m) :: post)) n
      = executeToolRoute (initServers (pre ++ post)) n := by
  have key : initServers (pre ++ (cfg, InitOutcome.fail m) :: post)
      = initServers (pre ++ post) := by
    unfold initServers
    rw [List.foldl_append, List.foldl_append, List.foldl_cons]
  exact ⟨key, by rw [key], by rw [key], by rw [key]⟩

/-! ## Claim C5: provider error objects and how each framing settles -/

/-- Claim C5 counterexample: on the plain-JSON framing of the HTTP
transport, a JSON-RPC *error* envelope (which has `jsonrpc` but no
`result` property) fails the envelope-unwrap test and is returned as the
successful value of the call — the logical call settles as a success
carrying the error envelope, not as a failure. -/
theorem httpJsonBody_error_settles_as_success :
    sendStreamableHTTPRequestOutcome true 200 "OK"
        (HTTPBody.json (Json.obj [("jsonrpc", Json.str "2.0"), ("id", Json.num 1),
          ("error", Json.obj [("message", Json.str "boom")])]))
      = Except.ok (Json.obj [("jsonrpc", Json.str "2.0"), ("id", Json.num 1),
          ("error", Json.obj [("message", Json.str "boom")])]) := by
  rfl

/-- Claim C5 amended: a provider-returned JSON-RPC error object settles the
logical call as a failure carrying the provider-supplied message on the
stdio newline framing (`handleMCPResponse` rejects) and on the
event-stream framing (`parseSSEResponse` throws); but on the plain-JSON
body framing the error envelope, having no `result` property, is returned
to the caller as a successful value. -/
theorem jsonrpcError_settling_by_framing (resp e le ee env : Json)
    (lines : List SSELine)
    (hr : jsGetField resp "error" = some e) (ht : truthy e = true)
    (hl : (collectSSEEvents lines).getLast? = some le)
    (hlr : jsGetField le "result" = none)
    (hle : jsGetField le "error" = some ee)
    (henv : jsHasField env "result" = false) :
    handleMCPResponseSettle resp = Except.error (mcpErrorText e) ∧
    parseSSEResponse lines = Except.error (sseErrorText ee) ∧
    sendStreamableHTTPRequestOutcome true 200 "OK" (HTTPBody.json env)
      = Except.ok env := by
  refine ⟨?_, ?_, ?_⟩
  · unfold handleMCPResponseSettle
    rw [hr]
    simp [ht]
  · unfold parseSSEResponse
    rw [hl]
    dsimp only
    rw [hlr, hle]
  · have henvid : unwrapEnvelope env = env := by
      unfold unwrapEnvelope
      simp [henv]
    unfold sendStreamableHTTPRequestOutcome
    simp [henvid]

theorem jsonrpcError_settling_by_framing_witness :
    (jsGetField (Json.obj [("jsonrpc", Json.str "2.0"), ("id", Json.num 1),
        ("error", Json.obj [("message", Json.str "boom")])]) "error"
      = some (Json.obj [("message", Json.str "boom")])) ∧
    (truthy (Json.obj [("message", Json.str "boom")]) = true) ∧
    ((collectSSEEvents
        [SSELine.data (some (Json.obj [("error", Json.obj [("message", Json.str "sse boom")]),
          ("jsonrpc", Json.str "2.0"), ("id", Json.num 2)]))]).getLast?
      = some (Json.obj [("error", Json.obj [("message", Json.str "sse boom")]),
          ("jsonrpc", Json.str "2.0"), ("id", Json.num 2)])) ∧
    (jsGetField (Json.obj [("error", Json.obj [("message", Json.str "sse boom")]),
        ("jsonrpc", Json.str "2.0"), ("id", Json.num 2)]) "result" = none) ∧
    (jsGetField (Json.obj [("error", Json.obj [("message", Json.str "sse boom")]),
        ("jsonrpc", Json.str "2.0"), ("id", Json.num 2)]) "error"
      = some (Json.obj [("message", Json.str "sse boom")])) ∧
    (jsHasField (Json.obj [("jsonrpc", Json.str "2.0"), ("id", Json.num 1),
        ("error", Json.obj [("message", Json.str "boom")])]) "result" = false) ∧
    (handleMCPResponseSettle (Json.obj [("jsonrpc", Json.str "2.0"), ("id", Json.num 1),
        ("error", Json.obj [("message", Json.str "boom")])])
      = Except.error (mcpErrorText (Json.obj [("message", Json.str "boom")])) ∧
     parseSSEResponse
        [SSELine.data (some (Json.obj [("error", Json.obj [("message", Json.str "sse boom")]),
          ("jsonrpc", Json.str "2.0"), ("id", Json.num 2)]))]
      = Except.error (sseErrorText (Json.obj [("message", Json.str "sse boom")])) ∧
     sendStreamableHTTPRequestOutcome true 200 "OK"
        (HTTPBody.json (Json.obj [("jsonrpc", Json.str "2.0"), ("id", Json.num 1),
          ("error", Json.obj [("message", Json.str "boom")])]))
      = Except.ok (Json.obj [("jsonrpc", Json.str "2.0"), ("id", Json.num 1),
          ("error", Json.obj [("message", Json.str "boom")])])) :=
  ⟨rfl, rfl, rfl, rfl, rfl, rfl,
    jsonrpcError_settling_by_framing
      (Json.obj [("jsonrpc", Json.str "2.0"), ("id", Json.num 1),
        ("error", Json.obj [("message", Json.str "boom")])])
      (Json.obj [("message", Json.str "boom")])
      (Json.obj [("error", Json.obj [("message", Json.str "sse boom")]),
        ("jsonrpc", Json.str "2.0"), ("id", Json.num 2)])
      (Json.obj [("message", Json.str "sse boom")])
      (Json.obj [("jsonrpc", Json.str "2.0"), ("id", Json.num 1),
        ("error", Json.obj [("message", Json.str "boom")])])
      [SSELine.data (some (Json.obj [("error", Json.obj [("message", Json.str "sse boom")]),
        ("jsonrpc", Json.str "2.0"), ("id", Json.num 2)]))]
      rfl rfl rfl rfl rfl rfl⟩

/-! ## Claim C8: SSE framing uses only the last event -/

/-- Claim C8: when an HTTP response body is an event stream, only the last
fully-formed `data: ` event decides the logical response — a present
`result` field settles the call with it, otherwise a present `error` field
settles the call as a failure — and every earlier event is discarded: any
two streams with the same last accumulated event produce the same
outcome. -/
theorem parseSSEResponse_uses_last_event (lines lines2 : List SSELine)
    (le r e : Json)
    (hl : (collectSSEEvents lines).getLast? = some le) :
    (jsGetField le "result" = some r → parseSSEResponse lines = Except.ok r) ∧
    (jsGetField le "result" = none → jsGetField le "error" = some e →
        parseSSEResponse lines = Except.error (sseErrorText e)) ∧
    ((collectSSEEvents lines2).getLast? = some le →
        parseSSEResponse lines2 = parseSSEResponse lines) := by
  refine ⟨?_, ?_, ?_⟩
  · intro hres
    unfold parseSSEResponse
    rw [hl]
    dsimp only
    rw [hres]
  · intro hres herr
    unfold parseSSEResponse
    rw [hl]
    dsimp only
    rw [hres, herr]
  · intro hl2
    unfold parseSSEResponse
    rw [hl, hl2]

theorem parseSSEResponse_uses_last_event_witness :
    ((collectSSEEvents
        [SSELine.data (some (Json.obj [("progress", Json.num 1)])),
         SSELine.data (some (Json.obj [("progress", Json.num 2)])),
         SSELine.data (some (Json.obj [("result", Json.obj [("tools", Json.arr [])]),
           ("jsonrpc", Json.str "2.0"), ("id", Json.num 7)]))]).getLast?
      = some (Json.obj [("result", Json.obj [("tools", Json.arr [])]),
          ("jsonrpc", Json.str "2.0"), ("id", Json.num 7)])) ∧
    ((jsGetField (Json.obj [("result", Json.obj [("tools", Json.arr [])]),
          ("jsonrpc", Json.str "2.0"), ("id", Json.num 7)]) "result"
        = some (Json.obj [("tools", Json.arr [])]) →
      parseSSEResponse
        [SSELine.data (some (Json.obj [("progress", Json.num 1)])),
         SSELine.data (some (Json.obj [("progress", Json.num 2)])),
         SSELine.data (some (Json.obj [("result", Json.obj [("tools", Json.arr [])]),
           ("jsonrpc", Json.str "2.0"), ("id", Json.num 7)]))]
        = Except.ok (Json.obj [("tools", Json.arr [])])) ∧
     (jsGetField (Json.obj [("result", Json.obj [("tools", Json.arr [])]),
          ("jsonrpc", Json.str "2.0"), ("id", Json.num 7)]) "result" = none →
      jsGetField (Json.obj [("result", Json.obj [("tools", Json.arr [])]),
          ("jsonrpc", Json.str "2.0"), ("id", Json.num 7)]) "error" = some Json.null →
      parseSSEResponse
        [SSELine.data (some (Json.obj [("progress", Json.num 1)])),
         SSELine.data (some (Json.obj [("progress", Json.num 2)])),
         SSELine.data (some (Json.obj [("result", Json.obj [("tools", Json.arr [])]),
           ("jsonrpc", Json.str "2.0"), ("id", Json.num 7)]))]
        = Except.error (sseErrorText Json.null)) ∧
     ((collectSSEEvents
          [SSELine.data (some (Json.obj [("result", Json.obj [("tools", Json.arr [])]),
            ("jsonrpc", Json.str "2.0"), ("id", Json.num 7)]))]).getLast?
        = some (Json.obj [("result", Json.obj [("tools", Json.arr [])]),
            ("jsonrpc", Json.str "2.0"), ("id", Json.num 7)]) →
      parseSSEResponse
          [SSELine.data (some (Json.obj [("result", Json.obj [("tools", Json.arr [])]),
            ("jsonrpc", Json.str "2.0"), ("id", Json.num 7)]))]
        = parseSSEResponse
          [SSELine.data (some (Json.obj [("progress", Json.num 1)])),
           SSELine.data (some (Json.obj [("progress", Json.num 2)])),
           SSELine.data (some (Json.obj [("result", Json.obj [("tools", Json.arr [])]),
             ("jsonrpc", Json.str "2.0"), ("id", Json.num 7)]))])) :=
  ⟨rfl,
    parseSSEResponse_uses_last_event
      [SSELine.data (some (Json.obj [("progress", Json.num 1)])),
       SSELine.data (some (Json.obj [("progress", Json.num 2)])),
       SSELine.data (some (Json.obj [("result", Json.obj [("tools", Json.arr [])]),
         ("jsonrpc", Json.str "2.0"), ("id", Json.num 7)]))]
      [SSELine.data (some (Json.obj [("result", Json.obj [("tools", Json.arr [])]),
        ("jsonrpc", Json.str "2.0"), ("id", Json.num 7)]))]
      (Json.obj [("result", Json.obj [("tools", Json.arr [])]),
        ("jsonrpc", Json.str "2.0"), ("id", Json.num 7)])
      (Json.obj [("tools", Json.arr [])])
      Json.null
      rfl⟩

/-! ## Claim C9: shutdown behavior -/

/-- Claim C9 counterexample: a provider with one in-flight request at
shutdown.  After `shutdown()` the dropped instance's pending-request map
still holds the entry and its reject callback has not fired — `shutdown`
kills the subprocess and clears the registry, but neither rejects pending
requests nor clears the per-instance pending map. -/
theorem shutdown_leaves_pending_unsettled :
    ((shutdownEff (ClientSt.mk
        [FullInst.mk "a" "stdio" true true
          (run inst0 [Ev.send "tools/list"])])).2.map
        (fun i => (i.corr.pending, i.corr.rejects, i.corr.resolves, i.processAlive)))
      = [([(1, 10000)], [], [], false)] := by
  decide

/-- Claim C9 amended: `shutdown()` kills every provider's subprocess (when
one exists) and clears the registry, discarding all provider state, and a
second `shutdown()` has no additional effect; but still-pending requests
are not rejected and the per-instance pending map is not cleared — the
dropped instances keep their correlation state unchanged, and pending
requests settle only later when their timers fire. -/
theorem shutdown_kills_and_clears (c : ClientSt) (i : FullInst)
    (h : i.hasProcess = true) :
    (shutdownEff c).1.servers = [] ∧
    (shutdownEff c).2 = c.servers.map killInst ∧
    (killInst i).corr = i.corr ∧
    (killInst i).processAlive = false ∧
    shutdownEff ((shutdownEff c).1) = (ClientSt.mk [], []) := by
  refine ⟨rfl, rfl, ?_, ?_, rfl⟩
  · unfold killInst
    by_cases hp : i.hasProcess <;> simp [hp]
  · unfold killInst
    rw [if_pos h]

theorem shutdown_kills_and_clears_witness :
    ((FullInst.mk "a" "stdio" true true inst0).hasProcess = true) ∧
    ((shutdownEff (ClientSt.mk [FullInst.mk "a" "stdio" true true inst0])).1.servers = [] ∧
     (shutdownEff (ClientSt.mk [FullInst.mk "a" "stdio" true true inst0])).2
        = (ClientSt.mk [FullInst.mk "a" "stdio" true true inst0]).servers.map killInst ∧
     (killInst (FullInst.mk "a" "stdio" true true inst0)).corr
        = (FullInst.mk "a" "stdio" true true inst0).corr ∧
     (killInst (FullInst.mk "a" "stdio" true true inst0)).processAlive = false ∧
     shutdownEff ((shutdownEff (ClientSt.mk
        [FullInst.mk "a" "stdio" true true inst0])).1) = (ClientSt.mk [], [])) :=
  ⟨rfl, shutdown_kills_and_clears
    (ClientSt.mk [FullInst.mk "a" "stdio" true true inst0])
    (FullInst.mk "a" "stdio" true true inst0) rfl⟩

end Cyra
